import Mathlib

/-!
Verification of the CONTROL-QR-PERSONAL map/aggregation core.

This file shallowly embeds the sector-assignment and aggregation logic of
js/mapa.js (toNum, getCoords, getWhenS, getWhenA, parsePath, drawOneGeofence,
onSegment, pointInRing, sectorOfPoint, sectorNumber, sectorLabel,
baseSectorCountMap, renderSectorLegend, updateSectorCountsFrom), the latest
snapshot filter of js/personal.js (rebuildSerenos), the alert filter of
js/alertas.js (rebuildAlertas), and the notification emit shared by both
providers.  Coordinates are modelled over the exact rationals; JS Map objects
are modelled as insertion-ordered association lists; the stable
Array.prototype.sort is modelled by insertion sort, which computes the unique
stable sort for a total transitive boolean comparator.
-/

namespace ControlQR

/-- A JS scalar value as it can appear in a coordinate-like field:
a finite number, the number NaN, a string, or undefined (also covering null,
which behaves the same for the nullish-coalescing and numeric coercions used
here). -/
inductive JSVal where
  | num (q : ℚ)
  | nan
  | str (s : String)
  | undef
deriving DecidableEq, Repr

/-- Value of a decimal digit run, as computed by parseFloat/parseInt. -/
def digitsVal (ds : List Char) : ℕ :=
  ds.foldl (fun n c => 10 * n + (c.toNat - 48)) 0

/-- Powers of ten, written recursively so that they reduce inside the
kernel. -/
def tenPow : ℕ → ℚ
  | 0 => 1
  | n + 1 => 10 * tenPow n

/-- Value of the fractional digit run of a decimal literal. -/
def fracVal (ds : List Char) : ℚ :=
  (digitsVal ds : ℚ) / tenPow ds.length

/-- Model of JS parseFloat restricted to plain decimal literals (leading
spaces, optional sign, integer digits, optional fraction digits), the
only shapes the repository feeds to it; none models NaN. -/
def parseFloatQ (s : String) : Option ℚ :=
  let cs := s.toList.dropWhile (fun c => c = ' ')
  let signed : ℚ × List Char :=
    match cs with
    | '-' :: rest => (-1, rest)
    | '+' :: rest => (1, rest)
    | _ => (1, cs)
  let intDs := signed.2.takeWhile Char.isDigit
  let afterInt := signed.2.dropWhile Char.isDigit
  let fracDs :=
    match afterInt with
    | '.' :: rest => rest.takeWhile Char.isDigit
    | _ => []
  if intDs.isEmpty && fracDs.isEmpty then none
  else some (signed.1 * ((digitsVal intDs : ℚ) + fracVal fracDs))

/-- Replace the first comma of a character list by a dot, as the
non-global JS String.replace(",", ".") does. -/
def replCommaChars : List Char → List Char
  | [] => []
  | c :: rest => if c = ',' then '.' :: rest else c :: replCommaChars rest

/-- Model of String(v).replace(",", ".") on a string value. -/
def replaceFirstComma (s : String) : String :=
  String.mk (replCommaChars s.toList)

/-- Model of mapa.js toNum: a number is returned unchanged (NaN included);
any other value is coerced to a string whose first comma becomes a dot and
then goes through parseFloat.  String(undefined) = "undefined" has no leading
number, hence NaN. -/
def toNum : JSVal → Option ℚ
  | .num q => some q
  | .nan => none
  | .str s => parseFloatQ (replaceFirstComma s)
  | .undef => none

/-- Model of a JS nullish-coalescing chain a ?? b ?? ...: first operand that
is neither undefined nor null; undefined when the chain is exhausted. -/
def jsCoalesce : List (Option JSVal) → JSVal
  | [] => .undef
  | some .undef :: rest => jsCoalesce rest
  | some v :: _ => v
  | none :: rest => jsCoalesce rest

/-- The alternate coordinate field names read by mapa.js getCoords; none
models an absent field. -/
structure CoordFields where
  lat : Option JSVal
  latitude : Option JSVal
  latitud : Option JSVal
  lng : Option JSVal
  long : Option JSVal
  lon : Option JSVal
  longitude : Option JSVal
  longitud : Option JSVal
deriving DecidableEq, Repr

/-- Model of mapa.js getCoords: coerce the first present latitude and
longitude field, reject NaN or out-of-range values, return the pair. -/
def getCoords (o : CoordFields) : Option (ℚ × ℚ) :=
  let latv := toNum (jsCoalesce [o.lat, o.latitude, o.latitud])
  let lngv := toNum (jsCoalesce [o.lng, o.long, o.lon, o.longitude, o.longitud])
  match latv, lngv with
  | some la, some ln =>
    if la < -90 ∨ 90 < la ∨ ln < -180 ∨ 180 < ln then none else some (la, ln)
  | _, _ => none

/-! Geometry: points, boundary test, ray casting, point location. -/

/-- A latitude/longitude vertex as stored in a rendered polygon ring. -/
structure Pt where
  lat : ℚ
  lng : ℚ
deriving DecidableEq, Repr

/-- Model of Math.abs on an exact rational. -/
def jsAbs (q : ℚ) : ℚ := if q < 0 then -q else q

/-- The epsilon default of mapa.js onSegment, 1e-10. -/
def epsDefault : ℚ := 1 / tenPow 10

/-- Model of mapa.js onSegment(px, py, x1, y1, x2, y2, eps): cross-product
collinearity within eps, then the dot-product betweenness test. -/
def onSegment (px py x1 y1 x2 y2 eps : ℚ) : Bool :=
  let cross := (px - x1) * (y2 - y1) - (py - y1) * (x2 - x1)
  if eps < jsAbs cross then false
  else decide ((px - x1) * (px - x2) + (py - y1) * (py - y2) ≤ eps)

/-- The (current vertex, previous vertex) pairs visited by the pointInRing
loop: index i runs forward from 0 while j is the previous index, starting at
length - 1, so every edge of the closed ring is visited once. -/
def edgePairs (ring : List Pt) : List (Pt × Pt) :=
  match ring.getLast? with
  | none => []
  | some lastP => ring.zip (lastP :: ring.dropLast)

/-- The loop body of mapa.js pointInRing: an edge whose onSegment test passes
returns true immediately; otherwise the ray-casting parity is toggled on
crossing edges and returned at the end. -/
def pirLoop (lat lng : ℚ) : List (Pt × Pt) → Bool → Bool
  | [], inside => inside
  | (pc, pp) :: rest, inside =>
    let xi := pc.lng
    let yi := pc.lat
    let xj := pp.lng
    let yj := pp.lat
    if onSegment lng lat xi yi xj yj epsDefault then true
    else
      let doesCross := (decide (yi > lat) != decide (yj > lat)) &&
        decide (lng < (xj - xi) * (lat - yi) / (yj - yi) + xi)
      pirLoop lat lng rest (if doesCross then !inside else inside)

/-- Model of mapa.js pointInRing. -/
def pointInRing (lat lng : ℚ) (ring : List Pt) : Bool :=
  pirLoop lat lng (edgePairs ring) false

/-- Fold a list of rationals down to its minimum, seeded with a first value. -/
def foldMin (a : ℚ) (l : List ℚ) : ℚ := l.foldl min a

/-- Fold a list of rationals up to its maximum, seeded with a first value. -/
def foldMax (a : ℚ) (l : List ℚ) : ℚ := l.foldl max a

/-- Leaflet LatLngBounds.contains for the bounds spanned by the vertices of a
polygon (inclusive on all four sides); the empty bounds contain nothing. -/
def boundsContains (pts : List Pt) (lat lng : ℚ) : Bool :=
  match pts with
  | [] => false
  | p :: rest =>
    decide (foldMin p.lat (rest.map Pt.lat) ≤ lat) &&
    decide (lat ≤ foldMax p.lat (rest.map Pt.lat)) &&
    decide (foldMin p.lng (rest.map Pt.lng) ≤ lng) &&
    decide (lng ≤ foldMax p.lng (rest.map Pt.lng))

/-- A geofence record as kept in the geofenceById map: nombre is the merged
d.nombre || d.name of the inbound document, colorAssigned models the _color
field written back by drawOneGeofence. -/
structure Geofence where
  nombre : Option String
  name : Option String
  color : Option String
  colorAssigned : Option String
deriving DecidableEq, Repr

/-- A rendered polygon as kept in the geofenceLayers map: its id and the
rings returned by getLatLngs (a list of rings, matching the normalization
rings = Array.isArray(lls[0]) ? lls : [lls] in sectorOfPoint). -/
structure Layer where
  id : String
  rings : List (List Pt)
deriving DecidableEq, Repr

/-- JS Map.prototype.get on an insertion-ordered association list. -/
def mapGet {α : Type} (m : List (String × α)) (k : String) : Option α :=
  match m with
  | [] => none
  | (k0, v) :: rest => if k0 = k then some v else mapGet rest k

/-- JS Map.prototype.set on an insertion-ordered association list: an
existing key keeps its position and gets the new value, a new key is
appended. -/
def mapSet {α : Type} (m : List (String × α)) (k : String) (v : α) : List (String × α) :=
  match m with
  | [] => [(k, v)]
  | (k0, v0) :: rest => if k0 = k then (k0, v) :: rest else (k0, v0) :: mapSet rest k v

/-- Model of mapa.js sectorOfPoint: iterate the layers in insertion order;
for each, a bounding-box pre-filter, a geofenceById lookup, then ray casting
on every ring with at least 3 vertices; first hit wins. -/
def sectorOfPoint (lat lng : ℚ) (layers : List Layer)
    (byId : List (String × Geofence)) : Option (String × Geofence) :=
  match layers with
  | [] => none
  | ly :: rest =>
    if boundsContains ly.rings.flatten lat lng then
      match mapGet byId ly.id with
      | none => sectorOfPoint lat lng rest byId
      | some g =>
        if ly.rings.any (fun r => 3 ≤ r.length && pointInRing lat lng r)
        then some (ly.id, g)
        else sectorOfPoint lat lng rest byId
    else sectorOfPoint lat lng rest byId

/-! Sector numbering, labels, and the stable sort used by the legends. -/

/-- First run of decimal digits embedded in a string, as matched by the regex
followed by parseInt base 10; none when the string holds no digit, standing
for POSITIVE_INFINITY in the callers. -/
def firstNat (s : String) : Option ℕ :=
  let ds := (s.toList.dropWhile (fun c => !c.isDigit)).takeWhile Char.isDigit
  if ds.isEmpty then none else some (digitsVal ds)

/-- Model of mapa.js sectorNumber over a possibly-absent name: String(name or
empty when falsy), then the first embedded integer. -/
def sectorNumber (name : Option String) : Option ℕ :=
  firstNat (match name with | some s => s | none => "")

/-- JS truthiness of a possibly-absent string: present and nonempty. -/
def strTruthy : Option String → Bool
  | some s => !(s == "")
  | none => false

/-- JS a || b over possibly-absent strings. -/
def jsOrStr (a b : Option String) : Option String :=
  if strTruthy a then a else b

/-- JS a || d where d is a present string default. -/
def jsOrStrD (a : Option String) (d : String) : String :=
  match a with
  | some s => if s = "" then d else s
  | none => d

/-- Model of mapa.js sectorLabel: S followed by the extracted number when the
name has one, otherwise the raw name, otherwise "Sector". -/
def sectorLabel (g : Geofence) : String :=
  match sectorNumber (jsOrStr g.nombre g.name) with
  | some n => "S" ++ toString n
  | none => jsOrStrD (jsOrStr g.nombre g.name) "Sector"

/-- Boolean order modelling the JS comparator (na - nb) over sector numbers,
where none stands for POSITIVE_INFINITY: the NaN produced by comparing two
infinities is treated as 0 by Array.prototype.sort, so two none keys compare
equal. -/
def keyLE : Option ℕ → Option ℕ → Bool
  | some m, some n => decide (m ≤ n)
  | some _, none => true
  | none, some _ => false
  | none, none => true

/-- Insert into a le-sorted list before the first larger element; the helper
of the stable sort below. -/
def jsOrderedInsert {α : Type} (le : α → α → Bool) (a : α) : List α → List α
  | [] => [a]
  | b :: l => if le a b then a :: b :: l else b :: jsOrderedInsert le a l

/-- Model of the stable Array.prototype.sort with a consistent comparator:
for a total, transitive boolean le, the stable sort is unique, so insertion
sort computes exactly the array sort result. -/
def jsStableSort {α : Type} (le : α → α → Bool) : List α → List α
  | [] => []
  | b :: l => jsOrderedInsert le b (jsStableSort le l)

/-- A sector occupancy entry, as built by baseSectorCountMap and
updateSectorCountsFrom and rendered as one chip by renderSectorLegend. -/
structure Entry where
  label : String
  num : Option ℕ
  color : String
  name : String
  count : ℕ
deriving DecidableEq, Repr

/-- The color recorded in a base entry: g._color || g.color || "#9ca3af". -/
def entryColor (g : Geofence) : String :=
  jsOrStrD (jsOrStr g.colorAssigned g.color) "#9ca3af"

/-- The zero-count entry seeded for one geofence by baseSectorCountMap. -/
def mkBaseEntry (g : Geofence) : Entry :=
  ⟨sectorLabel g, sectorNumber g.nombre, entryColor g,
    jsOrStrD (jsOrStr g.nombre g.name) (sectorLabel g), 0⟩

/-- Model of mapa.js baseSectorCountMap: the geofenceById values sorted
stably by sectorNumber(nombre), folded into a JS Map keyed by sector label
(a duplicated label silently keeps one bucket). -/
def baseSectorCountMap (byId : List (String × Geofence)) : List (String × Entry) :=
  let ordered := jsStableSort
    (fun a b => keyLE (sectorNumber a.nombre) (sectorNumber b.nombre)) (byId.map Prod.snd)
  ordered.foldl (fun m g => mapSet m (sectorLabel g) (mkBaseEntry g)) []

/-- Model of mapa.js renderSectorLegend: the count-map values, stably sorted
by their num field; the resulting chip sequence. -/
def renderSectorLegend (m : List (String × Entry)) : List Entry :=
  jsStableSort (fun a b => keyLE a.num b.num) (m.map Prod.snd)

/-! Timestamps: getWhenS and getWhenA. -/

/-- A JS Date value: its millisecond instant, or the Invalid Date. -/
inductive JSDate where
  | valid (ms : Int)
  | invalid
deriving DecidableEq, Repr

/-- The shapes a Firestore timestamp-like field can take, as discriminated by
getWhenS/getWhenA: a native Timestamp (toDate available, millisecond
instant), an object with a numeric seconds field, a plain number, a string
(carrying the result of new Date(string): some instant when the JS date
parser accepts it, none otherwise), or any other value. -/
inductive TsField where
  | native (ms : Int)
  | secondsObj (s : Int)
  | num (ms : Int)
  | str (parsed : Option Int)
  | other
deriving DecidableEq, Repr

/-- Split a character list at every slash or hyphen, keeping empty pieces,
as the regex split in getWhenS does. -/
def splitSepsAux : List Char → List (List Char)
  | [] => [[]]
  | c :: rest =>
    let acc := splitSepsAux rest
    if c = '/' ∨ c = '-' then [] :: acc
    else
      match acc with
      | [] => [[c]]
      | g :: gs => (c :: g) :: gs

/-- Model of s.split(/[\/\-]/). -/
def splitFecha (s : String) : List String :=
  (splitSepsAux s.toList).map String.mk

/-- Drop spaces at both ends of a character list. -/
def trimSpaces (cs : List Char) : List Char :=
  ((cs.dropWhile (fun c => c = ' ')).reverse.dropWhile (fun c => c = ' ')).reverse

/-- Model of JS unary plus on a string, restricted to optional-sign decimal
integers (the shapes a date piece can take): surrounding spaces are trimmed,
the empty string coerces to 0, a signed digit run to its value, anything
else to NaN (none). -/
def jsPlusInt (s : String) : Option Int :=
  match trimSpaces s.toList with
  | [] => some 0
  | '-' :: ds =>
    if !ds.isEmpty && ds.all Char.isDigit then some (-(digitsVal ds : Int)) else none
  | '+' :: ds =>
    if !ds.isEmpty && ds.all Char.isDigit then some (digitsVal ds : Int) else none
  | ds => if ds.all Char.isDigit then some (digitsVal ds : Int) else none

/-- Model of the fecha branch of getWhenS: destructure the first three split
pieces as [dd, mm, yy] (a missing piece is undefined, i.e. NaN after the
unary plus) and build new Date(yy, mm-1, dd).  The ymd parameter abstracts
the JS civil-calendar encoding of a local date from numeric arguments; with
any NaN argument the constructed date is the Invalid Date. -/
def dateFromFecha (ymd : Int → Int → Int → Int) (s : String) : JSDate :=
  let parts := (splitFecha s).map jsPlusInt
  match (parts.get? 0).join, (parts.get? 1).join, (parts.get? 2).join with
  | some dd, some mm, some yy => .valid (ymd yy (mm - 1) dd)
  | _, _, _ => .invalid

/-- Model of mapa.js getWhenS: native timestamp, seconds object, parseable
string, then the fecha field when truthy, else the epoch.  A plain number
timestamp matches no branch and also falls through to fecha/epoch. -/
def getWhenS (ymd : Int → Int → Int → Int) (t : TsField) (fecha : Option String) : JSDate :=
  match t with
  | .native ms => .valid ms
  | .secondsObj s => .valid (s * 1000)
  | .str (some ms) => .valid ms
  | _ =>
    match fecha with
    | some f => if f = "" then .valid 0 else dateFromFecha ymd f
    | none => .valid 0

/-- Model of mapa.js getWhenA: native timestamp, seconds object, number,
parseable string, else the epoch. -/
def getWhenA (t : TsField) : JSDate :=
  match t with
  | .native ms => .valid ms
  | .secondsObj s => .valid (s * 1000)
  | .num ms => .valid ms
  | .str (some ms) => .valid ms
  | .str none => .valid 0
  | .other => .valid 0

/-! The personal.js latest-snapshot filter and the sector aggregator. -/

/-- Date >= number comparison: an Invalid Date compares false. -/
def jdGE (d : JSDate) (m : Int) : Bool :=
  match d with
  | .valid x => decide (m ≤ x)
  | .invalid => false

/-- Date < number comparison: an Invalid Date compares false. -/
def jdLT (d : JSDate) (m : Int) : Bool :=
  match d with
  | .valid x => decide (x < m)
  | .invalid => false

/-- Date > Date comparison: an Invalid Date on either side compares false. -/
def jdGTd (a b : JSDate) : Bool :=
  match a, b with
  | .valid x, .valid y => decide (y < x)
  | _, _ => false

/-- Trim a string at both ends, as String.prototype.trim on spaces. -/
def trimStr (s : String) : String :=
  String.mk (trimSpaces s.toList)

/-- Model of mapa.js norm restricted to ASCII content: a missing value
coerces to the empty string, then trim and lowercase (the Unicode diacritic
stripping step is the identity on the ASCII fragment this development
evaluates). -/
def norm (s : Option String) : String :=
  String.mk ((trimSpaces (match s with | some v => v | none => "").toList).map Char.toLower)

/-- Contiguous-substring test on character lists. -/
def containsSub (sub : List Char) : List Char → Bool
  | [] => sub.isEmpty
  | c :: rest => sub.isPrefixOf (c :: rest) || containsSub sub rest

/-- Model of String.prototype.includes: substring (infix) test. -/
def jsIncludes (s sub : String) : Bool :=
  containsSub sub.toList s.toList

/-- The fields of an asistencias document consumed by the latest-snapshot
filter of personal.js. -/
structure SerenoData where
  coordf : CoordFields
  nombre : Option String
  dni : Option String
  comentario : Option String
deriving DecidableEq, Repr

/-- A cached asistencias document: its data and the derived timestamp. -/
structure SerenoRec where
  data : SerenoData
  whend : JSDate
deriving DecidableEq, Repr

/-- One latest-snapshot value of personal.js rebuildSerenos: the record,
its timestamp, its validated coordinates, and the comment flag. -/
structure LatestInfo where
  data : SerenoData
  whend : JSDate
  coords : ℚ × ℚ
  hasC : Bool
deriving DecidableEq, Repr

/-- The truthy-trim step of personal.js keyFor: a field contributes its
trimmed value when the raw value and the trimmed value are both truthy. -/
def truthyTrim : Option String → Option String
  | some s => if s = "" then none else (if trimStr s = "" then none else some (trimStr s))
  | none => none

/-- Model of personal.js keyFor: trimmed DNI, else trimmed nombre, else the
sentinel "sin-id". -/
def keyFor (d : SerenoData) : String :=
  match truthyTrim d.dni with
  | some k => k
  | none =>
    match truthyTrim d.nombre with
    | some k => k
    | none => "sin-id"

/-- Model of the hasC flag: the comentario field is truthy and trims to a
nonempty string. -/
def hasComment (d : SerenoData) : Bool :=
  match d.comentario with
  | some s => !(s == "") && !(trimStr s == "")
  | none => false

/-- One iteration of the latest-snapshot loop of rebuildSerenos: reject
records without valid coordinates, outside the [start, end) shift window,
failing the text filter on nombre or DNI, or without a comment when the
toggle is set; keep the most recent record per key. -/
def latestStep (startMs endMs : Int) (texto : String) (onlyC : Bool)
    (latest : List (String × LatestInfo)) (kv : String × SerenoRec) :
    List (String × LatestInfo) :=
  let r := kv.2
  match getCoords r.data.coordf with
  | none => latest
  | some c =>
    if !(jdGE r.whend startMs && jdLT r.whend endMs) then latest
    else
      if !(texto == "" || jsIncludes (norm r.data.nombre) texto
            || jsIncludes (norm r.data.dni) texto) then latest
      else
        let hC := hasComment r.data
        if onlyC && !hC then latest
        else
          let k := keyFor r.data
          match mapGet latest k with
          | some prev =>
            if jdGTd r.whend prev.whend
            then mapSet latest k ⟨r.data, r.whend, c, hC⟩
            else latest
          | none => mapSet latest k ⟨r.data, r.whend, c, hC⟩

/-- The latest map built by rebuildSerenos from the document cache, the
shift window, the normalized search text, and the comment toggle. -/
def buildLatest (startMs endMs : Int) (texto : String) (onlyC : Bool)
    (docs : List (String × SerenoRec)) : List (String × LatestInfo) :=
  docs.foldl (latestStep startMs endMs texto onlyC) []

/-- One iteration of the counting loop of updateSectorCountsFrom: locate the
entity, then bump its label bucket, synthesizing a fresh entry when the
label is absent from the base map. -/
def countStep (layers : List Layer) (byId : List (String × Geofence))
    (m : List (String × Entry)) (kv : String × LatestInfo) : List (String × Entry) :=
  match sectorOfPoint kv.2.coords.1 kv.2.coords.2 layers byId with
  | none => m
  | some ig =>
    let lab := sectorLabel ig.2
    match mapGet m lab with
    | some e => mapSet m lab ⟨e.label, e.num, e.color, e.name, e.count + 1⟩
    | none => mapSet m lab
        ⟨lab, sectorNumber ig.2.nombre, jsOrStrD ig.2.colorAssigned "#9ca3af",
          jsOrStrD ig.2.nombre lab, 1⟩

/-- Model of mapa.js updateSectorCountsFrom: with no geofence layers, render
the zero base map untouched (the latest map is never consulted); otherwise
count every located latest position into the base map and render it. -/
def updateSectorCountsFrom (layers : List Layer) (byId : List (String × Geofence))
    (latest : List (String × LatestInfo)) : List Entry :=
  if layers.isEmpty then renderSectorLegend (baseSectorCountMap byId)
  else renderSectorLegend (latest.foldl (countStep layers byId) (baseSectorCountMap byId))

/-! Geofence ingestion: parsePath and drawOneGeofence. -/

/-- A raw path vertex of an inbound geofence document. -/
structure RawPt where
  lat : JSVal
  lng : JSVal
deriving DecidableEq, Repr

/-- Model of mapa.js parsePath: coerce both coordinates of every vertex and
drop the vertices where either is NaN. -/
def parsePath (arr : List RawPt) : List Pt :=
  (arr.map (fun p => (toNum p.lat, toNum p.lng))).filterMap (fun ab =>
    match ab with
    | (some a, some b) => some ⟨a, b⟩
    | _ => none)

/-- An inbound geofence document as staged by the geofences snapshot
handler. -/
structure GeofenceDoc where
  id : String
  nombre : Option String
  color : Option String
  path : List RawPt
deriving DecidableEq, Repr

/-- The closing step of drawOneGeofence: append the first vertex when the
path has more than 2 points and its first and last vertices differ in
latitude or longitude. -/
def closeIfNeeded (path : List Pt) : List Pt :=
  match path with
  | [] => []
  | p0 :: rest =>
    match (p0 :: rest).getLast? with
    | none => p0 :: rest
    | some q =>
      if 2 < (p0 :: rest).length ∧ (p0.lat ≠ q.lat ∨ p0.lng ≠ q.lng)
      then (p0 :: rest) ++ [p0]
      else p0 :: rest

/-- Model of mapa.js drawOneGeofence: the latlngs array handed to the
rendering layer, or none when the filtered path is empty and the geofence is
skipped without registering a layer. -/
def drawOneGeofence (g : GeofenceDoc) : Option (List Pt) :=
  match parsePath g.path with
  | [] => none
  | p :: rest => some (closeIfNeeded (p :: rest))

/-! The alertas.js filter. -/

/-- The two alert display modes. -/
inductive AlertMode where
  | active
  | range
deriving DecidableEq, Repr

/-- 30 minutes in milliseconds. -/
def THIRTY_MIN : Int := 30 * 60 * 1000

/-- A cached alert document: its id, coordinate fields, and derived
timestamp. -/
structure AlertRec where
  id : String
  coordf : CoordFields
  whend : JSDate
deriving DecidableEq, Repr

/-- The inclusion decision of alertas.js rebuildAlertas: active mode keeps a
record when now minus its instant is at most 30 minutes; range mode keeps it
when its instant lies in [start, end). -/
def alertInclude (mode : AlertMode) (now : Int) (whend : JSDate)
    (startMs endMs : Int) : Bool :=
  match mode with
  | .active =>
    match whend with
    | .valid w => decide (now - w ≤ THIRTY_MIN)
    | .invalid => false
  | .range => jdGE whend startMs && jdLT whend endMs

/-- Model of rebuildAlertas: the records rendered as markers and counted by
the visibles counter under the current mode. -/
def rebuildAlertasVisible (mode : AlertMode) (now startMs endMs : Int)
    (docsA : List AlertRec) : List AlertRec :=
  docsA.filter (fun r => (getCoords r.coordf).isSome && alertInclude mode now r.whend startMs endMs)

/-! The notification emit shared by personal.js and alertas.js. -/

/-- Model of the emit helper: each subscriber callback acts on an ambient
world state and reports the state after its side effects together with the
exception it raised, if any (JS heap mutations survive a throw).  The
try/catch of emit discards the exception and moves to the next callback, so
emit itself always returns normally. -/
def emit {σ ε : Type} (cbs : List (σ → σ × Option ε)) (s : σ) : σ :=
  cbs.foldl (fun st cb => (cb st).1) s

/-- A tracing subscriber: appends its index to the shared log, then raises
whatever the failure pattern prescribes for it. -/
def logCB {ε : Type} (fails : ℕ → Option ε) (i : ℕ) : List ℕ → List ℕ × Option ε :=
  fun s => (s ++ [i], fails i)

/-! Concrete inputs used by the witnesses below. -/

/-- A geofence named Sector 4. -/
def gS4 : Geofence := ⟨some "Sector 4", none, none, none⟩

/-- A geofence named Sector 12. -/
def gS12 : Geofence := ⟨some "Sector 12", none, none, none⟩

/-- A geofence named Zona Norte (no digits in the name). -/
def gZN : Geofence := ⟨some "Zona Norte", none, none, none⟩

/-- All insertion orders of a geofence map holding these three geofences,
listed explicitly. -/
def threeGeofencePerms : List (List (String × Geofence)) :=
  [[("a", gS12), ("b", gZN), ("c", gS4)],
   [("a", gS12), ("c", gS4), ("b", gZN)],
   [("b", gZN), ("a", gS12), ("c", gS4)],
   [("b", gZN), ("c", gS4), ("a", gS12)],
   [("c", gS4), ("a", gS12), ("b", gZN)],
   [("c", gS4), ("b", gZN), ("a", gS12)]]

/-- The unit-square ring used by the boundary-inclusion witness. -/
def sqRing : List Pt := [⟨0, 0⟩, ⟨0, 1⟩, ⟨1, 1⟩, ⟨1, 0⟩]

/-- The layer rendered for the unit-square geofence. -/
def sqLayer : Layer := ⟨"g1", [sqRing]⟩

/-- Coordinate fields with lat 91, out of range. -/
def cfLat91 : CoordFields :=
  ⟨some (.num 91), none, none, some (.num 10), none, none, none, none⟩

/-- A cached asistencias record carrying the out-of-range coordinates. -/
def recLat91 : SerenoRec := ⟨⟨cfLat91, some "Ana", some "111", none⟩, .valid 5⟩

/-- A geofence named Sector 5 (label S5). -/
def gS5 : Geofence := ⟨some "Sector 5", none, none, none⟩

/-- The two disjoint unit-square layers of the label-collision witness. -/
def collisionLayers : List Layer :=
  [⟨"ga", [sqRing]⟩, ⟨"gb", [[⟨10, 10⟩, ⟨10, 11⟩, ⟨11, 11⟩, ⟨11, 10⟩]]⟩]

/-- An empty sereno data payload for synthetic latest entries. -/
def emptySereno : SerenoData := ⟨⟨none, none, none, none, none, none, none, none⟩, none, none, none⟩

/-- The latest map of the label-collision witness: one entity in each of the
two Sector 5 squares. -/
def collisionLatest : List (String × LatestInfo) :=
  [("e1", ⟨emptySereno, .valid 0, (1/2, 1/2), false⟩),
   ("e2", ⟨emptySereno, .valid 0, (21/2, 21/2), false⟩)]

/-! Helper lemmas about the stable sort. -/

/-- jsOrderedInsert permutes to consing the element. -/
theorem jsOrderedInsert_perm {α : Type} (le : α → α → Bool) (a : α) (l : List α) :
    List.Perm (jsOrderedInsert le a l) (a :: l) := by
  induction l with
  | nil => rfl
  | cons b l ih =>
    by_cases h : le a b = true
    · simp [jsOrderedInsert, h]
    · simp only [jsOrderedInsert, h]
      rw [if_neg (by simp [h])]
      exact (List.Perm.cons b ih).trans (List.Perm.swap a b l)

/-- The stable sort permutes its input. -/
theorem jsStableSort_perm {α : Type} (le : α → α → Bool) (l : List α) :
    List.Perm (jsStableSort le l) l := by
  induction l with
  | nil => rfl
  | cons b l ih =>
    exact (jsOrderedInsert_perm le b (jsStableSort le l)).trans (List.Perm.cons b ih)

/-- Membership in an ordered insert. -/
theorem mem_jsOrderedInsert {α : Type} (le : α → α → Bool) (a x : α) (l : List α) :
    x ∈ jsOrderedInsert le a l ↔ x = a ∨ x ∈ l := by
  rw [(jsOrderedInsert_perm le a l).mem_iff]
  simp

/-- Ordered insertion preserves pairwise sortedness for a total transitive
comparator. -/
theorem pairwise_jsOrderedInsert {α : Type} (le : α → α → Bool)
    (htot : ∀ a b, le a b = true ∨ le b a = true)
    (htr : ∀ a b c, le a b = true → le b c = true → le a c = true)
    (a : α) (l : List α) (hl : l.Pairwise (fun x y => le x y = true)) :
    (jsOrderedInsert le a l).Pairwise (fun x y => le x y = true) := by
  induction l with
  | nil => simp [jsOrderedInsert]
  | cons b l ih =>
    rcases List.pairwise_cons.mp hl with ⟨hb, hl'⟩
    by_cases h : le a b = true
    · simp only [jsOrderedInsert, if_pos h]
      refine List.pairwise_cons.mpr ⟨?_, hl⟩
      intro y hy
      rcases List.mem_cons.mp hy with rfl | hy'
      · exact h
      · exact htr a b y h (hb y hy')
    · have hba : le b a = true := (htot a b).resolve_left h
      simp only [jsOrderedInsert, if_neg h]
      refine List.pairwise_cons.mpr ⟨?_, ih hl'⟩
      intro y hy
      rcases (mem_jsOrderedInsert le a y l).mp hy with rfl | hy'
      · exact hba
      · exact hb y hy'

/-- The stable sort is pairwise sorted for a total transitive comparator. -/
theorem pairwise_jsStableSort {α : Type} (le : α → α → Bool)
    (htot : ∀ a b, le a b = true ∨ le b a = true)
    (htr : ∀ a b c, le a b = true → le b c = true → le a c = true)
    (l : List α) : (jsStableSort le l).Pairwise (fun x y => le x y = true) := by
  induction l with
  | nil => simp [jsStableSort]
  | cons b l ih => exact pairwise_jsOrderedInsert le htot htr b _ ih

/-- The stable sort agrees with Mathlib insertion sort over the decidable
relation of the comparator. -/
theorem jsStableSort_eq_insertionSort {α : Type} (le : α → α → Bool) (l : List α) :
    jsStableSort le l = List.insertionSort (fun x y => le x y = true) l := by
  induction l with
  | nil => rfl
  | cons b l ih =>
    simp only [jsStableSort, List.insertionSort, ih]
    generalize List.insertionSort (fun x y => le x y = true) l = m
    induction m with
    | nil => rfl
    | cons c m ihm =>
      by_cases h : le b c = true
      · simp [jsOrderedInsert, List.orderedInsert, h]
      · simp only [jsOrderedInsert, List.orderedInsert, h, if_neg, ihm]

/-- The comparator order on sector keys is total. -/
theorem keyLE_total : ∀ a b : Option ℕ, keyLE a b = true ∨ keyLE b a = true := by
  intro a b
  cases a <;> cases b <;> simp [keyLE]
  exact Nat.le_total _ _

/-- The comparator order on sector keys is transitive. -/
theorem keyLE_trans : ∀ a b c : Option ℕ, keyLE a b = true → keyLE b c = true → keyLE a c = true := by
  intro a b c
  cases a <;> cases b <;> cases c <;> simp [keyLE]
  exact Nat.le_trans

/-! Helper lemmas about association-list maps. -/

/-- Values of a map after mapSet still satisfy a preserved predicate. -/
theorem mapSet_all {α : Type} (P : α → Bool) (m : List (String × α)) (k : String) (v : α)
    (hm : (m.map Prod.snd).all P = true) (hv : P v = true) :
    ((mapSet m k v).map Prod.snd).all P = true := by
  induction m with
  | nil => simp [mapSet, hv]
  | cons kv rest ih =>
    obtain ⟨k0, v0⟩ := kv
    simp only [List.map_cons, List.all_cons, Bool.and_eq_true] at hm
    by_cases h : k0 = k
    · simp [mapSet, h, hv, hm.2]
    · simp only [mapSet, if_neg h, List.map_cons, List.all_cons, Bool.and_eq_true]
      exact ⟨hm.1, ih hm.2⟩

/-- Every entry seeded by the base-count fold has count zero. -/
theorem baseFold_all_zero (l : List Geofence) (m : List (String × Entry))
    (hm : (m.map Prod.snd).all (fun e => e.count == 0) = true) :
    (((l.foldl (fun m g => mapSet m (sectorLabel g) (mkBaseEntry g)) m)).map Prod.snd).all
      (fun e => e.count == 0) = true := by
  induction l generalizing m with
  | nil => exact hm
  | cons g l ih =>
    exact ih _ (mapSet_all _ m (sectorLabel g) (mkBaseEntry g) hm (by simp [mkBaseEntry]))

/-- Every base entry has count zero. -/
theorem baseSectorCountMap_all_zero (byId : List (String × Geofence)) :
    ((baseSectorCountMap byId).map Prod.snd).all (fun e => e.count == 0) = true :=
  baseFold_all_zero _ [] rfl

/-- The rendered legend keeps any predicate holding of all map values. -/
theorem renderSectorLegend_all (P : Entry → Bool) (m : List (String × Entry))
    (hm : (m.map Prod.snd).all P = true) :
    (renderSectorLegend m).all P = true := by
  rw [List.all_eq_true] at hm ⊢
  intro e he
  exact hm e ((jsStableSort_perm _ _).mem_iff.mp he)

/-! Claim C9: notification emit. -/

/-- C9: during one recompute cycle, emit invokes every registered subscriber
callback exactly once, synchronously and in registration order, whatever
exception pattern the callbacks exhibit: the trace of an arbitrary list of
tracing subscribers is the full registration order appended to the prior log,
independently of which callbacks throw, and emit itself returns normally, so
a throwing subscriber neither blocks later subscribers nor disturbs the
notifying recompute. -/
theorem C9_emit_isolates_failures (ε : Type) (fails : ℕ → Option ε)
    (idxs : List ℕ) (s0 : List ℕ) :
    emit (idxs.map (logCB fails)) s0 = s0 ++ idxs := by
  induction idxs generalizing s0 with
  | nil => simp [emit]
  | cons i rest ih =>
    have h1 : emit ((i :: rest).map (logCB fails)) s0
        = emit (rest.map (logCB fails)) (s0 ++ [i]) := rfl
    rw [h1, ih]
    simp

/-! Claim C10: comma decimal separator in toNum / getCoords. -/

unseal Rat.add Rat.mul Rat.inv Rat.sub in
/-- C10: toNum coerces string coordinates with a comma decimal separator, so
lat "10,5" parses as 10.5 and, paired with lng "-77,25", passes getCoords
validation as the coordinate pair (10.5, -77.25). -/
theorem C10_comma_decimal :
    toNum (JSVal.str "10,5") = some (21 / 2) ∧
    getCoords ⟨some (.str "10,5"), none, none, some (.str "-77,25"), none, none, none, none⟩
      = some (21 / 2, -(309 / 4)) := by decide

/-! Claim C4: zero-geofence safety of the aggregation. -/

/-- C4: with no geofence layers, updateSectorCountsFrom short-circuits to the
rendered zero base summary whatever (possibly stale, non-empty) latest map is
supplied — the output does not depend on the latest map, every rendered entry
has count 0, and with no geofences seeded at all the output is the empty
sequence; the total function never fails. -/
theorem C4_zero_geofence_safety (byId : List (String × Geofence))
    (latest : List (String × LatestInfo)) :
    updateSectorCountsFrom [] byId latest = renderSectorLegend (baseSectorCountMap byId) ∧
    (updateSectorCountsFrom [] byId latest).all (fun e => e.count == 0) = true ∧
    updateSectorCountsFrom [] [] latest = [] := by
  refine ⟨rfl, ?_, rfl⟩
  exact renderSectorLegend_all _ _ (baseSectorCountMap_all_zero byId)

/-! Claim C5: alert filter semantics. -/

/-- C5 counterexample: an alert with valid coordinates whose timestamp
(3600000 ms, one hour after the wall clock now = 0) lies in the future is
rendered and counted in active mode, although the claimed upper bound
timestamp <= now fails: the code only enforces now - timestamp <= 30 min. -/
theorem C5_counterexample :
    rebuildAlertasVisible .active 0 0 0
        [⟨"a1", ⟨some (.num 0), none, none, some (.num 0), none, none, none, none⟩, .valid 3600000⟩]
      = [⟨"a1", ⟨some (.num 0), none, none, some (.num 0), none, none, none, none⟩, .valid 3600000⟩] ∧
    ¬((3600000 : Int) ≤ 0) := by decide

/-- C5 (amended): in active mode a valid-coordinate alert is included iff
now - 30 min <= timestamp, with no upper bound (future timestamps are
included); in range mode iff shiftStart <= timestamp < shiftEnd; and a record
is rendered and counted iff it is cached, has valid coordinates, and passes
the mode's inclusion test. -/
theorem C5_alert_filter (mode : AlertMode) (now startMs endMs w : Int)
    (r : AlertRec) (docs : List AlertRec) :
    (alertInclude .active now (.valid w) startMs endMs = true ↔ now - THIRTY_MIN ≤ w) ∧
    (alertInclude .range now (.valid w) startMs endMs = true ↔ startMs ≤ w ∧ w < endMs) ∧
    (r ∈ rebuildAlertasVisible mode now startMs endMs docs ↔
      r ∈ docs ∧ (getCoords r.coordf).isSome = true ∧
        alertInclude mode now r.whend startMs endMs = true) := by
  refine ⟨?_, ?_, ?_⟩
  · simp only [alertInclude, decide_eq_true_eq]
    omega
  · simp [alertInclude, jdGE, jdLT]
  · simp [rebuildAlertasVisible, List.mem_filter, and_assoc]

/-! Claim C6: timestamp fallback. -/

/-- C6 counterexample: an asistencias document whose timestamp field matches
no supported format and whose fecha field is the unparseable string
"pendiente" derives the Invalid Date, not the epoch new Date(0) that the
claim promises for every record parsing under none of the formats. -/
theorem C6_counterexample :
    getWhenS (fun _ _ _ => 0) TsField.other (some "pendiente") = JSDate.invalid ∧
    JSDate.invalid ≠ JSDate.valid 0 := by decide

/-- C6 (amended): when the timestamp field parses under no supported format,
getWhenA always derives the epoch, and getWhenS derives the epoch exactly
when the fecha field is absent or falsy; a truthy fecha is delegated to the
dd/mm/yyyy destructuring, which yields an Invalid Date (not the epoch) when
fecha does not parse.  Both derivations are total functions, so they never
throw. -/
theorem C6_epoch_fallback (ymd : Int → Int → Int → Int) (t : TsField)
    (ht : t = TsField.other ∨ t = TsField.str none) :
    getWhenA t = JSDate.valid 0 ∧
    getWhenS ymd t none = JSDate.valid 0 ∧
    (∀ f : String,
      getWhenS ymd t (some f) = if f = "" then JSDate.valid 0 else dateFromFecha ymd f) := by
  rcases ht with rfl | rfl
  · exact ⟨rfl, rfl, fun f => rfl⟩
  · exact ⟨rfl, rfl, fun f => rfl⟩

/-- C6 witness: the amended theorem applied to the concrete unparseable
timestamp field TsField.other. -/
theorem C6_epoch_fallback_witness :
    getWhenA TsField.other = JSDate.valid 0 ∧
    getWhenS (fun _ _ _ => 0) TsField.other none = JSDate.valid 0 :=
  have h := C6_epoch_fallback (fun _ _ _ => 0) TsField.other (Or.inl rfl)
  ⟨h.1, h.2.1⟩

/-! Claim C7: geofence path closing and skipping. -/

/-- C7 counterexample: a geofence whose filtered path has the two distinct
points (0,0) and (1,1) — non-empty and not closed — is rendered unchanged:
the auto-close step requires more than 2 points, so no first vertex is
appended as the claim demands. -/
theorem C7_counterexample :
    drawOneGeofence ⟨"g2", some "Sector 9", none, [⟨.num 0, .num 0⟩, ⟨.num 1, .num 1⟩]⟩
      = some [⟨0, 0⟩, ⟨1, 1⟩] ∧
    ((⟨0, 0⟩ : Pt) ≠ ⟨1, 1⟩) ∧
    some [(⟨0, 0⟩ : Pt), ⟨1, 1⟩] ≠ some [⟨0, 0⟩, ⟨1, 1⟩, ⟨0, 0⟩] := by decide

/-- C7 (amended): a geofence whose filtered path is empty is skipped (no
layer is produced); a non-empty filtered path is rendered with the first
vertex appended exactly when it has more than 2 points and its first and
last vertices differ, and is rendered unchanged otherwise (in particular a
1- or 2-point open path is not auto-closed); whenever the filtered path has
at least 3 points the rendered ring is closed (first vertex = last
vertex). -/
theorem C7_auto_close (g : GeofenceDoc) (p0 q : Pt) (rest : List Pt)
    (hp : parsePath g.path = p0 :: rest) (hq : (p0 :: rest).getLast? = some q) :
    drawOneGeofence g =
      some (if 2 < (p0 :: rest).length ∧ (p0.lat ≠ q.lat ∨ p0.lng ≠ q.lng)
            then (p0 :: rest) ++ [p0] else p0 :: rest) ∧
    (3 ≤ (p0 :: rest).length →
      ∀ out, drawOneGeofence g = some out → out.head? = out.getLast?) ∧
    (∀ g2 : GeofenceDoc, parsePath g2.path = [] → drawOneGeofence g2 = none) := by
  have hdraw : drawOneGeofence g = some (closeIfNeeded (p0 :: rest)) := by
    unfold drawOneGeofence
    rw [hp]
  have hclose : closeIfNeeded (p0 :: rest) =
      if 2 < (p0 :: rest).length ∧ (p0.lat ≠ q.lat ∨ p0.lng ≠ q.lng)
      then (p0 :: rest) ++ [p0] else p0 :: rest := by
    simp only [closeIfNeeded]
    rw [hq]
  refine ⟨by rw [hdraw, hclose], ?_, ?_⟩
  · intro h3 out hout
    rw [hdraw, hclose] at hout
    by_cases hc : 2 < (p0 :: rest).length ∧ (p0.lat ≠ q.lat ∨ p0.lng ≠ q.lng)
    · rw [if_pos hc] at hout
      have hout' : out = (p0 :: rest) ++ [p0] := by injection hout with h; exact h.symm
      subst hout'
      show some p0 = ((p0 :: rest) ++ [p0]).getLast?
      rw [List.getLast?_concat]
    · rw [if_neg hc] at hout
      have hout' : out = p0 :: rest := by injection hout with h; exact h.symm
      subst hout'
      have hpq : p0 = q := by
        rcases not_and_or.mp hc with hlen | hne
        · exfalso
          omega
        · push_neg at hne
          cases p0
          cases q
          simp only at hne
          simp [hne.1, hne.2]
      subst hpq
      rw [hq]
      simp
  · intro g2 h2
    unfold drawOneGeofence
    rw [h2]

/-- C7 witness: a 3-point open triangle is auto-closed by appending its first
vertex. -/
theorem C7_auto_close_witness :
    drawOneGeofence ⟨"g3", some "S", none,
        [⟨.num 0, .num 0⟩, ⟨.num 0, .num 1⟩, ⟨.num 1, .num 0⟩]⟩
      = some [⟨0, 0⟩, ⟨0, 1⟩, ⟨1, 0⟩, ⟨0, 0⟩] :=
  (C7_auto_close ⟨"g3", some "S", none,
      [⟨.num 0, .num 0⟩, ⟨.num 0, .num 1⟩, ⟨.num 1, .num 0⟩]⟩
    ⟨0, 0⟩ ⟨1, 0⟩ [⟨0, 1⟩, ⟨1, 0⟩] (by decide) (by decide)).1.trans (by decide)

/-! Claim C8: coordinate validation and exclusion. -/

/-- A record without valid coordinates is a no-op for the latest-snapshot
fold. -/
theorem latestStep_skip (startMs endMs : Int) (texto : String) (onlyC : Bool)
    (latest : List (String × LatestInfo)) (k : String) (r : SerenoRec)
    (h : getCoords r.data.coordf = none) :
    latestStep startMs endMs texto onlyC latest (k, r) = latest := by
  simp only [latestStep, h]

/-- C8: a record whose latitude chain coerces to NaN, or whose longitude
chain coerces to NaN, or whose latitude falls outside [-90, 90], or whose
longitude falls outside [-180, 180], gets null from getCoords; and any
cached document whose coordinates fail validation contributes nothing to the
latest snapshot — hence nothing to marker rendering, which draws exactly the
latest entries — and nothing to any sector occupancy count computed from
it. -/
theorem C8_coordinate_validation (o : CoordFields) :
    (toNum (jsCoalesce [o.lat, o.latitude, o.latitud]) = none → getCoords o = none) ∧
    (∀ la, toNum (jsCoalesce [o.lat, o.latitude, o.latitud]) = some la →
      (la < -90 ∨ 90 < la) → getCoords o = none) ∧
    (toNum (jsCoalesce [o.lng, o.long, o.lon, o.longitude, o.longitud]) = none →
      getCoords o = none) ∧
    (∀ ln, toNum (jsCoalesce [o.lng, o.long, o.lon, o.longitude, o.longitud]) = some ln →
      (ln < -180 ∨ 180 < ln) → getCoords o = none) ∧
    (∀ (startMs endMs : Int) (texto : String) (onlyC : Bool)
        (pre post : List (String × SerenoRec)) (k : String) (r : SerenoRec),
      getCoords r.data.coordf = none →
      buildLatest startMs endMs texto onlyC (pre ++ (k, r) :: post) =
        buildLatest startMs endMs texto onlyC (pre ++ post)) ∧
    (∀ (layers : List Layer) (byId : List (String × Geofence))
        (startMs endMs : Int) (texto : String) (onlyC : Bool)
        (pre post : List (String × SerenoRec)) (k : String) (r : SerenoRec),
      getCoords r.data.coordf = none →
      updateSectorCountsFrom layers byId
          (buildLatest startMs endMs texto onlyC (pre ++ (k, r) :: post)) =
        updateSectorCountsFrom layers byId
          (buildLatest startMs endMs texto onlyC (pre ++ post))) := by
  have hskip : ∀ (startMs endMs : Int) (texto : String) (onlyC : Bool)
      (pre post : List (String × SerenoRec)) (k : String) (r : SerenoRec),
      getCoords r.data.coordf = none →
      buildLatest startMs endMs texto onlyC (pre ++ (k, r) :: post) =
        buildLatest startMs endMs texto onlyC (pre ++ post) := by
    intro startMs endMs texto onlyC pre post k r h
    unfold buildLatest
    rw [List.foldl_append, List.foldl_append, List.foldl_cons,
      latestStep_skip startMs endMs texto onlyC _ k r h]
  refine ⟨?_, ?_, ?_, ?_, hskip, ?_⟩
  · intro h
    unfold getCoords
    rw [h]
  · intro la hla hout
    unfold getCoords
    rw [hla]
    cases htn : toNum (jsCoalesce [o.lng, o.long, o.lon, o.longitude, o.longitud]) with
    | none => rfl
    | some ln =>
      have hcond : la < -90 ∨ 90 < la ∨ ln < -180 ∨ 180 < ln := by tauto
      simp [hcond]
  · intro h
    unfold getCoords
    rw [h]
    cases toNum (jsCoalesce [o.lat, o.latitude, o.latitud]) <;> rfl
  · intro ln hln hout
    unfold getCoords
    rw [hln]
    cases toNum (jsCoalesce [o.lat, o.latitude, o.latitud]) with
    | none => rfl
    | some la =>
      have hcond : la < -90 ∨ 90 < la ∨ ln < -180 ∨ 180 < ln := by tauto
      simp [hcond]
  · intro layers byId startMs endMs texto onlyC pre post k r h
    rw [hskip startMs endMs texto onlyC pre post k r h]

/-- C8 witness: the record with lat 91 fails validation and adding it to the
document cache leaves the latest snapshot unchanged. -/
theorem C8_coordinate_validation_witness :
    getCoords cfLat91 = none ∧
    buildLatest 0 10 "" false [("d1", recLat91)] = buildLatest 0 10 "" false [] :=
  have h := C8_coordinate_validation cfLat91
  have hnone : getCoords cfLat91 = none :=
    h.2.1 91 (by decide) (by decide)
  ⟨hnone, h.2.2.2.2.1 0 10 "" false [] [] "d1" recLat91 hnone⟩

/-! Claim C2: output ordering of the aggregation legend. -/

/-- C2: the rendered aggregation sequence is sorted by the comparator order
on sector numbers (ascending numeric order, non-numeric keys — none,
standing for infinity — after all numeric ones); the underlying stable sort
keeps the original map insertion order for any pair already in comparator
order, so ties preserve insertion order; and for a geofence map holding
exactly the geofences named "Sector 12", "Sector 4" and "Zona Norte", in
every insertion order, the output sequence is S4, S12, Zona Norte. -/
theorem C2_sector_ordering :
    (∀ byId : List (String × Geofence),
      (renderSectorLegend (baseSectorCountMap byId)).Pairwise
        (fun a b => keyLE a.num b.num = true)) ∧
    (∀ (m : List (String × Entry)) (a b : Entry), keyLE a.num b.num = true →
      List.Sublist [a, b] (m.map Prod.snd) →
      List.Sublist [a, b] (renderSectorLegend m)) ∧
    (∀ byId ∈ threeGeofencePerms,
      (renderSectorLegend (baseSectorCountMap byId)).map Entry.label
        = ["S4", "S12", "Zona Norte"]) := by
  refine ⟨?_, ?_, by decide⟩
  · intro byId
    unfold renderSectorLegend
    exact pairwise_jsStableSort (fun (a b : Entry) => keyLE a.num b.num)
      (fun a b => keyLE_total a.num b.num)
      (fun a b c hab hbc => keyLE_trans a.num b.num c.num hab hbc) _
  · intro m a b hab hsub
    unfold renderSectorLegend
    rw [jsStableSort_eq_insertionSort]
    exact List.sublist_insertionSort (List.pairwise_pair.mpr hab) hsub

/-- C2 witness: the identity insertion order of the three geofences renders
as S4, S12, Zona Norte. -/
theorem C2_sector_ordering_witness :
    (renderSectorLegend (baseSectorCountMap [("a", gS12), ("b", gZN), ("c", gS4)])).map
        Entry.label = ["S4", "S12", "Zona Norte"] :=
  C2_sector_ordering.2.2 [("a", gS12), ("b", gZN), ("c", gS4)] (by decide)

/-! Claim C3: label collision merges counts. -/

/-- A located point resolves to a geofence recorded in the byId map under
the layer's id. -/
theorem sectorOfPoint_lookup (lat lng : ℚ) (layers : List Layer)
    (byId : List (String × Geofence)) (p : String × Geofence)
    (h : sectorOfPoint lat lng layers byId = some p) :
    mapGet byId p.1 = some p.2 := by
  induction layers with
  | nil => simp [sectorOfPoint] at h
  | cons ly rest ih =>
    simp only [sectorOfPoint] at h
    split at h
    · split at h
      · exact ih h
      · split at h
        · rename_i g heq hr
          injection h with h'
          rw [← h']
          exact heq
        · exact ih h
    · exact ih h

/-- Counting latest positions into a one-bucket map keeps the single bucket
and adds exactly the number of located positions, provided every geofence
the locator can return carries that bucket's label. -/
theorem countFold_single (layers : List Layer) (byId : List (String × Geofence))
    (lab : String)
    (hlabels : ∀ i g, mapGet byId i = some g → sectorLabel g = lab)
    (latest : List (String × LatestInfo)) :
    ∀ e : Entry, e.label = lab →
    ∃ e2 : Entry,
      latest.foldl (countStep layers byId) [(lab, e)] = [(lab, e2)] ∧ e2.label = lab ∧
      e2.count = e.count +
        (latest.filter (fun kv =>
          (sectorOfPoint kv.2.coords.1 kv.2.coords.2 layers byId).isSome)).length := by
  induction latest with
  | nil => exact fun e he => ⟨e, rfl, he, by simp⟩
  | cons kv rest ih =>
    intro e he
    rw [List.foldl_cons]
    cases hs : sectorOfPoint kv.2.coords.1 kv.2.coords.2 layers byId with
    | none =>
      have hstep : countStep layers byId [(lab, e)] kv = [(lab, e)] := by
        simp [countStep, hs]
      rw [hstep]
      obtain ⟨e2, h1, h2, h3⟩ := ih e he
      refine ⟨e2, h1, h2, ?_⟩
      rw [h3]
      simp [List.filter_cons, hs]
    | some ig =>
      have hlab2 : sectorLabel ig.2 = lab :=
        hlabels ig.1 ig.2 (sectorOfPoint_lookup _ _ _ _ _ hs)
      have hstep : countStep layers byId [(lab, e)] kv
          = [(lab, ⟨e.label, e.num, e.color, e.name, e.count + 1⟩)] := by
        simp [countStep, hs, hlab2, mapGet, mapSet]
      rw [hstep]
      obtain ⟨e2, h1, h2, h3⟩ := ih ⟨e.label, e.num, e.color, e.name, e.count + 1⟩ he
      refine ⟨e2, h1, h2, ?_⟩
      rw [h3]
      simp [List.filter_cons, hs]
      omega

/-- The base map of two geofences sharing a sector label is a single bucket
keyed by that label, seeded from one of the two geofences. -/
theorem basePair_label (g1 g2 : Geofence) (id1 id2 : String)
    (hlab : sectorLabel g1 = sectorLabel g2) :
    baseSectorCountMap [(id1, g1), (id2, g2)] = [(sectorLabel g1, mkBaseEntry g1)] ∨
    baseSectorCountMap [(id1, g1), (id2, g2)] = [(sectorLabel g1, mkBaseEntry g2)] := by
  unfold baseSectorCountMap
  simp only [List.map_cons, List.map_nil]
  by_cases h : keyLE (sectorNumber g1.nombre) (sectorNumber g2.nombre) = true
  · right
    simp [jsStableSort, jsOrderedInsert, h, mapSet, hlab]
  · left
    simp [jsStableSort, jsOrderedInsert, h, mapSet, ← hlab]

/-- C3: two distinctly-identified geofences deriving the same sector label
share one bucket: the base map has the single key of that label, and the
aggregation output is one entry whose count is the number of latest
positions located into either geofence. -/
theorem C3_label_collision (g1 g2 : Geofence) (id1 id2 : String) (_hne : id1 ≠ id2)
    (hlab : sectorLabel g1 = sectorLabel g2)
    (layers : List Layer) (hlay : layers ≠ [])
    (latest : List (String × LatestInfo)) :
    ((baseSectorCountMap [(id1, g1), (id2, g2)]).map Prod.fst = [sectorLabel g1]) ∧
    ((updateSectorCountsFrom layers [(id1, g1), (id2, g2)] latest).map
        (fun e => (e.label, e.count)) =
      [(sectorLabel g1,
        (latest.filter (fun kv =>
          (sectorOfPoint kv.2.coords.1 kv.2.coords.2 layers
            [(id1, g1), (id2, g2)]).isSome)).length)]) := by
  have hlabels : ∀ i g, mapGet [(id1, g1), (id2, g2)] i = some g →
      sectorLabel g = sectorLabel g1 := by
    intro i g h
    simp only [mapGet] at h
    by_cases h1 : id1 = i
    · rw [if_pos h1] at h
      injection h with h'
      rw [← h']
    · rw [if_neg h1] at h
      by_cases h2 : id2 = i
      · rw [if_pos h2] at h
        injection h with h'
        rw [← h', ← hlab]
      · rw [if_neg h2] at h
        cases h
  have hne : (layers.isEmpty) = false := by
    cases layers with
    | nil => exact absurd rfl hlay
    | cons a l => rfl
  have hcount : ∀ e0 : Entry, e0.label = sectorLabel g1 → e0.count = 0 →
      baseSectorCountMap [(id1, g1), (id2, g2)] = [(sectorLabel g1, e0)] →
      (updateSectorCountsFrom layers [(id1, g1), (id2, g2)] latest).map
          (fun e => (e.label, e.count)) =
        [(sectorLabel g1,
          (latest.filter (fun kv =>
            (sectorOfPoint kv.2.coords.1 kv.2.coords.2 layers
              [(id1, g1), (id2, g2)]).isSome)).length)] := by
    intro e0 hel hec hbase
    unfold updateSectorCountsFrom
    rw [hne]
    simp only [Bool.false_eq_true, if_false, hbase]
    obtain ⟨e2, h1, h2, h3⟩ :=
      countFold_single layers [(id1, g1), (id2, g2)] (sectorLabel g1) hlabels latest e0 hel
    rw [h1]
    simp [renderSectorLegend, jsStableSort, jsOrderedInsert, h2, h3, hec]
  rcases basePair_label g1 g2 id1 id2 hlab with hb | hb
  · exact ⟨by rw [hb]; rfl, hcount (mkBaseEntry g1) rfl rfl hb⟩
  · exact ⟨by rw [hb]; rfl, hcount (mkBaseEntry g2) hlab.symm rfl hb⟩

unseal Rat.add Rat.mul Rat.inv Rat.sub in
/-- C3 witness: two geofences both named Sector 5, one entity located in
each square, merge into the single S5 bucket with count 2. -/
theorem C3_label_collision_witness :
    (updateSectorCountsFrom collisionLayers [("ga", gS5), ("gb", gS5)]
        collisionLatest).map (fun e => (e.label, e.count)) = [("S5", 2)] :=
  (C3_label_collision gS5 gS5 "ga" "gb" (by decide) rfl
    collisionLayers (by decide) collisionLatest).2.trans (by decide)

/-! Claim C1: boundary inclusion of the point-in-polygon test. -/

/-- Powers of ten are positive. -/
theorem tenPow_pos : ∀ n : ℕ, 0 < tenPow n
  | 0 => one_pos
  | n + 1 => by
    simp only [tenPow]
    exact mul_pos (by norm_num) (tenPow_pos n)

/-- The onSegment epsilon is positive. -/
theorem epsDefault_pos : 0 < epsDefault := by
  unfold epsDefault
  exact div_pos one_pos (tenPow_pos 10)

/-- A point written as an exact convex combination of a segment's endpoints
passes the onSegment test: the cross product vanishes and the dot product is
nonpositive, hence within any positive epsilon. -/
theorem onSegment_of_between (x1 y1 x2 y2 t eps : ℚ) (heps : 0 < eps)
    (ht0 : 0 ≤ t) (ht1 : t ≤ 1) :
    onSegment (x1 + t * (x2 - x1)) (y1 + t * (y2 - y1)) x1 y1 x2 y2 eps = true := by
  have hcross : (x1 + t * (x2 - x1) - x1) * (y2 - y1)
      - (y1 + t * (y2 - y1) - y1) * (x2 - x1) = 0 := by ring
  have hdot : (x1 + t * (x2 - x1) - x1) * (x1 + t * (x2 - x1) - x2)
      + (y1 + t * (y2 - y1) - y1) * (y1 + t * (y2 - y1) - y2)
      = t * (t - 1) * ((x2 - x1) ^ 2 + (y2 - y1) ^ 2) := by ring
  have hS : 0 ≤ (x2 - x1) ^ 2 + (y2 - y1) ^ 2 := by positivity
  have ht : t * (t - 1) ≤ 0 := by nlinarith
  have hprod : t * (t - 1) * ((x2 - x1) ^ 2 + (y2 - y1) ^ 2) ≤ 0 := by nlinarith
  simp only [onSegment]
  rw [hcross]
  have habs : jsAbs 0 = 0 := by norm_num [jsAbs]
  rw [habs, if_neg (not_lt.mpr heps.le)]
  simp only [decide_eq_true_eq]
  rw [hdot]
  linarith

/-- The pointInRing loop returns true as soon as some edge passes the
onSegment test, whatever the carried parity. -/
theorem pirLoop_true_of_onSeg (lat lng : ℚ) (edges : List (Pt × Pt)) (inside : Bool)
    (h : ∃ e ∈ edges, onSegment lng lat e.1.lng e.1.lat e.2.lng e.2.lat epsDefault = true) :
    pirLoop lat lng edges inside = true := by
  induction edges generalizing inside with
  | nil =>
    rcases h with ⟨e, he, _⟩
    cases he
  | cons hd tl ih =>
    obtain ⟨pc, pp⟩ := hd
    rcases h with ⟨e, he, hseg⟩
    rcases List.mem_cons.mp he with rfl | hmem
    · simp only [pirLoop]
      rw [if_pos hseg]
    · simp only [pirLoop]
      by_cases hh : onSegment lng lat pc.lng pc.lat pp.lng pp.lat epsDefault = true
      · rw [if_pos hh]
      · rw [if_neg hh]
        exact ih _ ⟨e, hmem, hseg⟩

/-- Both vertices of a visited edge belong to the ring. -/
theorem edgePairs_mem (ring : List Pt) (pc pp : Pt) (h : (pc, pp) ∈ edgePairs ring) :
    pc ∈ ring ∧ pp ∈ ring := by
  unfold edgePairs at h
  cases hl : ring.getLast? with
  | none =>
    rw [hl] at h
    cases h
  | some lastP =>
    rw [hl] at h
    have h2 := List.of_mem_zip h
    refine ⟨h2.1, ?_⟩
    rcases List.mem_cons.mp h2.2 with rfl | hmem
    · exact List.mem_of_getLast?_eq_some hl
    · exact (List.dropLast_sublist ring).subset hmem

/-- The seeded fold minimum is below the seed and every list element. -/
theorem foldMin_le_all (l : List ℚ) (a : ℚ) :
    foldMin a l ≤ a ∧ ∀ x ∈ l, foldMin a l ≤ x := by
  induction l generalizing a with
  | nil => exact ⟨le_refl a, by simp⟩
  | cons b l ih =>
    constructor
    · exact le_trans (ih (min a b)).1 (min_le_left a b)
    · intro x hx
      rcases List.mem_cons.mp hx with rfl | hx'
      · exact le_trans (ih (min a x)).1 (min_le_right a x)
      · exact (ih (min a b)).2 x hx'

/-- The seeded fold maximum is above the seed and every list element. -/
theorem le_foldMax_all (l : List ℚ) (a : ℚ) :
    a ≤ foldMax a l ∧ ∀ x ∈ l, x ≤ foldMax a l := by
  induction l generalizing a with
  | nil => exact ⟨le_refl a, by simp⟩
  | cons b l ih =>
    constructor
    · exact le_trans (le_max_left a b) (ih (max a b)).1
    · intro x hx
      rcases List.mem_cons.mp hx with rfl | hx'
      · exact le_trans (le_max_right a x) (ih (max a x)).1
      · exact (ih (max a b)).2 x hx'

/-- A convex combination of two values stays between their min and max. -/
theorem convex_mem_bounds (a b t : ℚ) (ht0 : 0 ≤ t) (ht1 : t ≤ 1) :
    min a b ≤ a + t * (b - a) ∧ a + t * (b - a) ≤ max a b := by
  rcases le_total a b with hab | hab
  · rw [min_eq_left hab, max_eq_right hab]
    constructor <;> nlinarith
  · rw [min_eq_right hab, max_eq_left hab]
    constructor <;> nlinarith

/-- A point lying between two vertices of a polygon, in both coordinates, is
inside the polygon's bounding box. -/
theorem boundsContains_of_mem (pts : List Pt) (u v : Pt) (hu : u ∈ pts) (hv : v ∈ pts)
    (lat lng : ℚ)
    (hlat1 : min u.lat v.lat ≤ lat) (hlat2 : lat ≤ max u.lat v.lat)
    (hlng1 : min u.lng v.lng ≤ lng) (hlng2 : lng ≤ max u.lng v.lng) :
    boundsContains pts lat lng = true := by
  cases pts with
  | nil => cases hu
  | cons p rest =>
    have hminlat : ∀ w : Pt, w ∈ p :: rest → foldMin p.lat (rest.map Pt.lat) ≤ w.lat := by
      intro w hw
      rcases List.mem_cons.mp hw with rfl | hw'
      · exact (foldMin_le_all _ _).1
      · exact (foldMin_le_all _ _).2 w.lat (List.mem_map_of_mem Pt.lat hw')
    have hmaxlat : ∀ w : Pt, w ∈ p :: rest → w.lat ≤ foldMax p.lat (rest.map Pt.lat) := by
      intro w hw
      rcases List.mem_cons.mp hw with rfl | hw'
      · exact (le_foldMax_all _ _).1
      · exact (le_foldMax_all _ _).2 w.lat (List.mem_map_of_mem Pt.lat hw')
    have hminlng : ∀ w : Pt, w ∈ p :: rest → foldMin p.lng (rest.map Pt.lng) ≤ w.lng := by
      intro w hw
      rcases List.mem_cons.mp hw with rfl | hw'
      · exact (foldMin_le_all _ _).1
      · exact (foldMin_le_all _ _).2 w.lng (List.mem_map_of_mem Pt.lng hw')
    have hmaxlng : ∀ w : Pt, w ∈ p :: rest → w.lng ≤ foldMax p.lng (rest.map Pt.lng) := by
      intro w hw
      rcases List.mem_cons.mp hw with rfl | hw'
      · exact (le_foldMax_all _ _).1
      · exact (le_foldMax_all _ _).2 w.lng (List.mem_map_of_mem Pt.lng hw')
    simp only [boundsContains, Bool.and_eq_true, decide_eq_true_eq]
    refine ⟨⟨⟨?_, ?_⟩, ?_⟩, ?_⟩
    · exact le_trans (le_min (hminlat u hu) (hminlat v hv)) hlat1
    · exact le_trans hlat2 (max_le (hmaxlat u hu) (hmaxlat v hv))
    · exact le_trans (le_min (hminlng u hu) (hminlng v hv)) hlng1
    · exact le_trans hlng2 (max_le (hmaxlng u hu) (hmaxlng v hv))

/-- The point locator succeeds whenever some layer in the list has the point
in its bounding box, a geofence recorded under its id, and a passing ring. -/
theorem sectorOfPoint_isSome (lat lng : ℚ) (layers : List Layer)
    (byId : List (String × Geofence)) (ly : Layer) (g : Geofence)
    (hmem : ly ∈ layers)
    (hb : boundsContains ly.rings.flatten lat lng = true)
    (hg : mapGet byId ly.id = some g)
    (hr : ly.rings.any (fun rr => 3 ≤ rr.length && pointInRing lat lng rr) = true) :
    (sectorOfPoint lat lng layers byId).isSome = true := by
  induction layers with
  | nil => cases hmem
  | cons hd tl ih =>
    rcases List.mem_cons.mp hmem with rfl | hmem'
    · simp only [sectorOfPoint]
      rw [if_pos hb, hg]
      dsimp only
      rw [if_pos hr]
      rfl
    · simp only [sectorOfPoint]
      split
      · split
        · exact ih hmem'
        · split
          · rfl
          · exact ih hmem'
      · exact ih hmem'

/-- On a single-layer state the locator returns exactly that layer's id and
geofence. -/
theorem sectorOfPoint_singleton (lat lng : ℚ) (ly : Layer)
    (byId : List (String × Geofence)) (g : Geofence)
    (hb : boundsContains ly.rings.flatten lat lng = true)
    (hg : mapGet byId ly.id = some g)
    (hr : ly.rings.any (fun rr => 3 ≤ rr.length && pointInRing lat lng rr) = true) :
    sectorOfPoint lat lng [ly] byId = some (ly.id, g) := by
  simp only [sectorOfPoint]
  rw [if_pos hb, hg]
  dsimp only
  rw [if_pos hr]

/-- C1: a point lying exactly on a boundary segment of a ring with at least
3 vertices (so that both the epsilon cross-product collinearity test and the
dot-product betweenness test pass) is reported inside by pointInRing, and
sectorOfPoint on a state whose layers include that ring (with its geofence
registered) returns a polygon rather than none — on the single-layer state it
returns exactly that polygon. -/
theorem C1_boundary_inclusion
    (r : List Pt) (pc pp : Pt) (t lat lng : ℚ)
    (hmem : (pc, pp) ∈ edgePairs r) (h3 : 3 ≤ r.length)
    (ht0 : 0 ≤ t) (ht1 : t ≤ 1)
    (hlng : lng = pc.lng + t * (pp.lng - pc.lng))
    (hlat : lat = pc.lat + t * (pp.lat - pc.lat))
    (layers : List Layer) (byId : List (String × Geofence)) (ly : Layer) (g : Geofence)
    (hly : ly ∈ layers) (hring : r ∈ ly.rings) (hid : mapGet byId ly.id = some g) :
    pointInRing lat lng r = true ∧
    (sectorOfPoint lat lng layers byId).isSome = true ∧
    sectorOfPoint lat lng [ly] byId = some (ly.id, g) := by
  subst hlng hlat
  have hseg := onSegment_of_between pc.lng pc.lat pp.lng pp.lat t epsDefault
    epsDefault_pos ht0 ht1
  have hpir : pointInRing (pc.lat + t * (pp.lat - pc.lat))
      (pc.lng + t * (pp.lng - pc.lng)) r = true := by
    unfold pointInRing
    exact pirLoop_true_of_onSeg _ _ _ _ ⟨(pc, pp), hmem, hseg⟩
  obtain ⟨hpc, hpp⟩ := edgePairs_mem r pc pp hmem
  have hpcf : pc ∈ ly.rings.flatten := List.mem_flatten.mpr ⟨r, hring, hpc⟩
  have hppf : pp ∈ ly.rings.flatten := List.mem_flatten.mpr ⟨r, hring, hpp⟩
  have hlatb := convex_mem_bounds pc.lat pp.lat t ht0 ht1
  have hlngb := convex_mem_bounds pc.lng pp.lng t ht0 ht1
  have hb : boundsContains ly.rings.flatten (pc.lat + t * (pp.lat - pc.lat))
      (pc.lng + t * (pp.lng - pc.lng)) = true :=
    boundsContains_of_mem _ pc pp hpcf hppf _ _ hlatb.1 hlatb.2 hlngb.1 hlngb.2
  have hany : ly.rings.any
      (fun rr => 3 ≤ rr.length && pointInRing (pc.lat + t * (pp.lat - pc.lat))
        (pc.lng + t * (pp.lng - pc.lng)) rr) = true := by
    rw [List.any_eq_true]
    refine ⟨r, hring, ?_⟩
    simp [h3, hpir]
  exact ⟨hpir, sectorOfPoint_isSome _ _ layers byId ly g hly hb hid hany,
    sectorOfPoint_singleton _ _ ly byId g hb hid hany⟩

unseal Rat.add Rat.mul Rat.inv Rat.sub in
/-- C1 witness: the midpoint of the bottom edge of the unit square is on the
boundary and is located in the square geofence. -/
theorem C1_boundary_inclusion_witness :
    pointInRing 0 (1 / 2) sqRing = true ∧
    sectorOfPoint 0 (1 / 2) [sqLayer] [("g1", gS4)] = some ("g1", gS4) :=
  have h := C1_boundary_inclusion sqRing ⟨0, 1⟩ ⟨0, 0⟩ (1 / 2) 0 (1 / 2)
    (by decide) (by decide) (by decide) (by decide) (by decide) (by decide)
    [sqLayer] [("g1", gS4)] sqLayer gS4 (by decide) (by decide) (by decide)
  ⟨h.1, h.2.2⟩

end ControlQR
